import Mathlib

/-!
Verification of scripts/copy_and_tar_dimm_data.py (lsst-sitcom/dimm_utils).

The script watches one source file for CLOSE_WRITE events; each qualifying
event snapshots the file's bytes into an open tar.gz archive under a name
embedding a microsecond-resolution UTC timestamp.  We embed the handler
(DimmTarCaptureHandler) as a pure state-transition function on an explicit
handler-state record, with wall-clock readings, UTC readings and read
outcomes supplied as fields of each delivered event (one clock reading per
handler invocation), and the driver (capture_dimm_to_tar) as a function of
the delivered event trace and the way the wait loop exits.
-/

/-- Decimal digits of a natural number, least significant first, at a fixed
width (zero padded, truncating above the width; datetime field values never
exceed their strftime field widths). -/
def digitsLE : Nat → Nat → List Nat
  | 0, _ => []
  | w + 1, n => n % 10 :: digitsLE w (n / 10)

/-- Zero-padded fixed-width decimal rendering of a natural number, as used by
each field of the strftime format string in the script. -/
def padNum (w n : Nat) : String := String.mk ((digitsLE w n).reverse.map Nat.digitChar)

/-- One reading of datetime.now(timezone.utc): the broken-down UTC fields the
strftime call consumes. -/
structure UtcDateTime where
  year : Nat
  month : Nat
  day : Nat
  hour : Nat
  minute : Nat
  second : Nat
  microsecond : Nat
deriving DecidableEq

/-- Field bounds that Python's datetime type itself enforces on construction
(MINYEAR..MAXYEAR, valid calendar fields, microsecond below 10^6). -/
def UtcDateTime.Valid (t : UtcDateTime) : Prop :=
  1 ≤ t.year ∧ t.year ≤ 9999 ∧ 1 ≤ t.month ∧ t.month ≤ 12 ∧
  1 ≤ t.day ∧ t.day ≤ 31 ∧ t.hour ≤ 23 ∧ t.minute ≤ 59 ∧
  t.second ≤ 59 ∧ t.microsecond ≤ 999999

instance (t : UtcDateTime) : Decidable t.Valid := by
  unfold UtcDateTime.Valid; infer_instance

/-- Chronological position of a UTC reading at microsecond resolution: on
valid readings this orders timestamps exactly as the clock does. -/
def UtcDateTime.key (t : UtcDateTime) : Nat :=
  (((((t.year * 100 + t.month) * 100 + t.day) * 100 + t.hour) * 100 +
      t.minute) * 100 + t.second) * 1000000 + t.microsecond

/-- Embedding of datetime.strftime with format %Y%m%d_%H%M%S_%f as the
script calls it on a UTC now() reading. -/
def UtcDateTime.strftimeYmdHMSf (t : UtcDateTime) : String :=
  padNum 4 t.year ++ padNum 2 t.month ++ padNum 2 t.day ++ "_" ++
  padNum 2 t.hour ++ padNum 2 t.minute ++ padNum 2 t.second ++ "_" ++
  padNum 6 t.microsecond

/-- The two pieces of a pathlib.Path that the script reads: str(path) and
path.stem (base name without the final suffix).  Path parsing itself is
library behaviour, kept abstract as these two attributes. -/
structure PyPath where
  str : String
  stem : String
deriving DecidableEq

/-- Event kinds a watchdog observer can dispatch to a FileSystemEventHandler.
The handler class overrides only on_closed (CLOSE_WRITE, i.e. write fully
completed); every other kind reaches an inherited no-op method. -/
inductive EventKind
  | closed
  | modified
  | created
  | deleted
  | moved
  | openedFile
deriving DecidableEq

instance exceptDecEq {ε α : Type} [DecidableEq ε] [DecidableEq α] :
    DecidableEq (Except ε α)
  | Except.error e, Except.error f =>
      if h : e = f then isTrue (by rw [h])
      else isFalse (by intro hh; cases hh; exact h rfl)
  | Except.error _, Except.ok _ => isFalse (by intro hh; cases hh)
  | Except.ok _, Except.error _ => isFalse (by intro hh; cases hh)
  | Except.ok x, Except.ok y =>
      if h : x = y then isTrue (by rw [h])
      else isFalse (by intro hh; cases hh; exact h rfl)

/-- One delivered filesystem event together with the environment the handler
invocation observes: the time.time() reading, the datetime.now(timezone.utc)
reading, the source file's own modification time (never consulted by the
script), and the outcome the open-and-read of the watched file would have
at that instant (bytes, or the exception message). -/
structure FsEvent where
  kind : EventKind
  src_path : String
  now : ℚ
  utc : UtcDateTime
  sourceMtime : ℚ
  readResult : Except String (List Nat)
deriving DecidableEq

/-- Metadata of one archive member, as set on the tarfile.TarInfo object:
synthetic name, exact byte length, and mtime taken from the wall clock. -/
structure TarInfo where
  name : String
  size : Nat
  mtime : ℚ
deriving DecidableEq

/-- One member appended to the open tar archive: its TarInfo plus the bytes
handed to addfile. -/
structure TarEntry where
  info : TarInfo
  data : List Nat
deriving DecidableEq

/-- Messages the script prints, restricted to the ones the specification
talks about (startup banner text is omitted). -/
inductive LogMsg
  | firstFrame
  | progress (count : Nat)
  | captureError (msg : String)
  | fileNotFound
  | stoppedByUser
  | summary (frames : Nat)
  | noFrames
deriving DecidableEq

/-- State of a DimmTarCaptureHandler instance.  tar_entries is the content
of the tar archive the constructor opened (append-only until close). -/
structure DimmTarCaptureHandler where
  source : PyPath
  tar_path : String
  duration : ℚ
  start_time : Option ℚ
  copy_count : Nat
  stop_observer : Bool
  tar_entries : List TarEntry
deriving DecidableEq

/-- Embedding of DimmTarCaptureHandler.__init__: records the configuration,
leaves start_time unset, zeroes the counter, clears the flag and opens the
(empty) archive. -/
def DimmTarCaptureHandler.init (source : PyPath) (tar_path : String)
    (duration_seconds : ℚ) : DimmTarCaptureHandler :=
  { source := source
    tar_path := tar_path
    duration := duration_seconds
    start_time := none
    copy_count := 0
    stop_observer := false
    tar_entries := [] }

/-- Embedding of DimmTarCaptureHandler.on_closed.  Returns the successor
state together with the lines printed during the invocation.  The event
carries the clock readings and the read outcome of this invocation. -/
def DimmTarCaptureHandler.on_closed (h : DimmTarCaptureHandler) (e : FsEvent) :
    DimmTarCaptureHandler × List LogMsg :=
  if e.src_path ≠ h.source.str then (h, [])
  else
    let started : Bool := h.start_time.isNone
    let st : ℚ := h.start_time.getD e.now
    let startLog : List LogMsg := if started then [LogMsg.firstFrame] else []
    let h1 : DimmTarCaptureHandler := { h with start_time := some st }
    let elapsed : ℚ := e.now - st
    if h1.duration < elapsed then
      ({ h1 with stop_observer := true }, startLog)
    else
      let filename : String :=
        h1.source.stem ++ "_" ++ e.utc.strftimeYmdHMSf ++ ".fits"
      match e.readResult with
      | Except.error msg => (h1, startLog ++ [LogMsg.captureError msg])
      | Except.ok file_data =>
          let tarinfo : TarInfo :=
            { name := filename, size := file_data.length, mtime := e.now }
          let h2 : DimmTarCaptureHandler :=
            { h1 with
                tar_entries := h1.tar_entries ++ [{ info := tarinfo, data := file_data }]
                copy_count := h1.copy_count + 1 }
          let progLog : List LogMsg :=
            if h2.copy_count % 50 = 0 then [LogMsg.progress h2.copy_count] else []
          (h2, startLog ++ progLog)

/-- Watchdog dispatch for this handler class: only a closed (CLOSE_WRITE)
event reaches the overridden on_closed; every other kind hits an inherited
no-op. -/
def dispatch (h : DimmTarCaptureHandler) (e : FsEvent) :
    DimmTarCaptureHandler × List LogMsg :=
  match e.kind with
  | EventKind.closed => h.on_closed e
  | _ => (h, [])

/-- Sequential delivery of a trace of events to the handler (the observer
delivers callbacks one at a time), collecting all printed lines. -/
def runEvents (h : DimmTarCaptureHandler) :
    List FsEvent → DimmTarCaptureHandler × List LogMsg
  | [] => (h, [])
  | e :: es =>
      let s := dispatch h e
      let r := runEvents s.1 es
      (r.1, s.2 ++ r.2)

/-- Ways control can leave the wait loop of capture_dimm_to_tar: the polling
condition sees the termination flag, a KeyboardInterrupt from the operator,
or some other exception that propagates (the finally block runs in every
case). -/
inductive LoopExit
  | timeout
  | interrupt
  | error (msg : String)
deriving DecidableEq

/-- Truthiness of the Optional[float] field start_time as Python evaluates
it in the line testing event_handler.start_time: None and 0.0 are falsy. -/
def pyTruthyFloat : Option ℚ → Bool
  | none => false
  | some t => decide (t ≠ 0)

/-- Observable outcome of one call to capture_dimm_to_tar: the value it
returns (or the exception message it propagates), the final handler state
when the handler was constructed, how many times the tar file was closed,
whether the output archive file is on disk after the call, and the printed
lines this model tracks. -/
structure RunOutcome where
  retval : Except String (Option String)
  handler : Option DimmTarCaptureHandler
  closeCalls : Nat
  archiveOnDisk : Bool
  logs : List LogMsg
deriving DecidableEq

/-- Embedding of capture_dimm_to_tar.  sourceExists is the source.exists()
probe at startup; events is the trace the observer delivers while the wait
loop runs; exit is how control leaves the wait loop.  The finally block
(observer.stop / observer.join / event_handler.close) runs exactly once on
every path out of the loop; on a propagating error the summary code after
the try statement is never reached and the archive file stays on disk. -/
def capture_dimm_to_tar (source : PyPath) (output_file : String)
    (duration_seconds : ℚ) (sourceExists : Bool) (events : List FsEvent)
    (exit : LoopExit) : RunOutcome :=
  if ¬ sourceExists then
    { retval := Except.ok none
      handler := none
      closeCalls := 0
      archiveOnDisk := false
      logs := [LogMsg.fileNotFound] }
  else
    let h0 := DimmTarCaptureHandler.init source output_file duration_seconds
    let run := runEvents h0 events
    let hf := run.1
    let interruptLog : List LogMsg :=
      match exit with
      | LoopExit.interrupt => [LogMsg.stoppedByUser]
      | _ => []
    match exit with
    | LoopExit.error msg =>
        { retval := Except.error msg
          handler := some hf
          closeCalls := 1
          archiveOnDisk := true
          logs := run.2 }
    | _ =>
        if pyTruthyFloat hf.start_time then
          { retval := Except.ok (some output_file)
            handler := some hf
            closeCalls := 1
            archiveOnDisk := true
            logs := run.2 ++ interruptLog ++ [LogMsg.summary hf.copy_count] }
        else
          { retval := Except.ok none
            handler := some hf
            closeCalls := 1
            archiveOnDisk := false
            logs := run.2 ++ interruptLog ++ [LogMsg.noFrames] }

/-- Effective session start the handler uses during one invocation: the
stored start time, or the current reading when this event is the first. -/
def effStart (h : DimmTarCaptureHandler) (e : FsEvent) : ℚ :=
  h.start_time.getD e.now

/-- Bytes a successful read returns (the empty list on a failed read; only
used under a hypothesis that the read succeeded). -/
def readBytes (e : FsEvent) : List Nat :=
  match e.readResult with
  | Except.ok d => d
  | Except.error _ => []

/-- The archive member a successful capture of event e appends, given the
source stem. -/
def mkEntry (stem : String) (e : FsEvent) : TarEntry :=
  { info :=
      { name := stem ++ "_" ++ e.utc.strftimeYmdHMSf ++ ".fits"
        size := (readBytes e).length
        mtime := e.now }
    data := readBytes e }

/-- An event the handler acts on: a write-completion event whose path is
exactly the watched source. -/
def Qualifying (h : DimmTarCaptureHandler) (e : FsEvent) : Prop :=
  e.kind = EventKind.closed ∧ e.src_path = h.source.str

/-- A concrete watched source used to exercise the definitions. -/
def samplePath : PyPath :=
  { str := "/dimm/dimm/image/dimm_tool/boxframe.fits", stem := "boxframe" }

/-- A concrete UTC reading. -/
def sampleUtc1 : UtcDateTime :=
  { year := 2024, month := 5, day := 17, hour := 3, minute := 4, second := 5,
    microsecond := 123456 }

/-- A slightly later concrete UTC reading (same second, later microsecond). -/
def sampleUtc2 : UtcDateTime :=
  { year := 2024, month := 5, day := 17, hour := 3, minute := 4, second := 5,
    microsecond := 123500 }

/-- A qualifying write-complete event for the sample source whose read
succeeds with the given bytes. -/
def okEvent (now : ℚ) (utc : UtcDateTime) (data : List Nat) : FsEvent :=
  { kind := EventKind.closed, src_path := samplePath.str, now := now,
    utc := utc, sourceMtime := 7, readResult := Except.ok data }

/-- A qualifying write-complete event for the sample source whose read
fails with the given message. -/
def failEvent (now : ℚ) (utc : UtcDateTime) (msg : String) : FsEvent :=
  { kind := EventKind.closed, src_path := samplePath.str, now := now,
    utc := utc, sourceMtime := 7, readResult := Except.error msg }

/-- A write-complete event for an unrelated file. -/
def otherPathEvent : FsEvent :=
  { kind := EventKind.closed, src_path := "/tmp/other.fits", now := 1,
    utc := sampleUtc1, sourceMtime := 7, readResult := Except.ok [0] }

/-- A modify (not write-complete) event for the watched source. -/
def modifyEvent : FsEvent :=
  { kind := EventKind.modified, src_path := samplePath.str, now := 1,
    utc := sampleUtc1, sourceMtime := 7, readResult := Except.ok [0] }

/-- A freshly constructed handler for the sample source, duration 30 s. -/
def sampleHandler : DimmTarCaptureHandler :=
  DimmTarCaptureHandler.init samplePath "dimm_data.tar.gz" 30

/-- The sample handler as it is after a session started at t = 100. -/
def startedHandler : DimmTarCaptureHandler :=
  { sampleHandler with start_time := some 100 }

/-! ### Characterisation of one dispatch step -/

/-- An event of the wrong kind or for another path is a complete no-op. -/
theorem dispatch_not_qualifying (h : DimmTarCaptureHandler) (e : FsEvent)
    (hne : e.src_path ≠ h.source.str ∨ e.kind ≠ EventKind.closed) :
    dispatch h e = (h, []) := by
  unfold dispatch
  cases hk : e.kind
  case closed =>
    rcases hne with hp | hk2
    · unfold DimmTarCaptureHandler.on_closed
      simp [hp]
    · exact absurd hk hk2
  all_goals rfl

/-- A qualifying event arriving after the duration has elapsed sets the
termination flag and changes nothing else (the start time is materialised,
unchanged when it was already set). -/
theorem dispatch_timeout (h : DimmTarCaptureHandler) (e : FsEvent)
    (hk : e.kind = EventKind.closed) (hp : e.src_path = h.source.str)
    (hw : h.duration < e.now - effStart h e) :
    dispatch h e =
      ({ h with start_time := some (effStart h e), stop_observer := true },
       if h.start_time.isNone then [LogMsg.firstFrame] else []) := by
  unfold dispatch
  rw [hk]
  unfold DimmTarCaptureHandler.on_closed
  rw [if_neg (by simp [hp])]
  simp only [effStart] at hw ⊢
  rw [if_pos hw]

/-- A qualifying event within the window whose read fails only materialises
the start time and logs the error message. -/
theorem dispatch_readfail (h : DimmTarCaptureHandler) (e : FsEvent) (msg : String)
    (hk : e.kind = EventKind.closed) (hp : e.src_path = h.source.str)
    (hr : e.readResult = Except.error msg)
    (hw : ¬ h.duration < e.now - effStart h e) :
    dispatch h e =
      ({ h with start_time := some (effStart h e) },
       (if h.start_time.isNone then [LogMsg.firstFrame] else []) ++
         [LogMsg.captureError msg]) := by
  unfold dispatch
  rw [hk]
  unfold DimmTarCaptureHandler.on_closed
  rw [if_neg (by simp [hp])]
  simp only [effStart] at hw ⊢
  rw [if_neg hw, hr]

/-- A qualifying event within the window whose read succeeds appends exactly
one member, built from this read and this invocation's clock readings, and
bumps the counter. -/
theorem dispatch_capture (h : DimmTarCaptureHandler) (e : FsEvent) (d : List Nat)
    (hk : e.kind = EventKind.closed) (hp : e.src_path = h.source.str)
    (hr : e.readResult = Except.ok d)
    (hw : ¬ h.duration < e.now - effStart h e) :
    dispatch h e =
      ({ h with start_time := some (effStart h e),
                copy_count := h.copy_count + 1,
                tar_entries := h.tar_entries ++ [mkEntry h.source.stem e] },
       (if h.start_time.isNone then [LogMsg.firstFrame] else []) ++
         (if (h.copy_count + 1) % 50 = 0 then [LogMsg.progress (h.copy_count + 1)]
          else [])) := by
  unfold dispatch
  rw [hk]
  unfold DimmTarCaptureHandler.on_closed
  rw [if_neg (by simp [hp])]
  simp only [effStart] at hw ⊢
  rw [if_neg hw, hr]
  simp only [mkEntry, readBytes, hr]

/-- A dispatch step never changes the configuration fields (source path,
archive path, duration). -/
theorem dispatch_config (h : DimmTarCaptureHandler) (e : FsEvent) :
    (dispatch h e).1.source = h.source ∧ (dispatch h e).1.tar_path = h.tar_path ∧
    (dispatch h e).1.duration = h.duration := by
  by_cases hk : e.kind = EventKind.closed
  · by_cases hp : e.src_path = h.source.str
    · by_cases hw : h.duration < e.now - effStart h e
      · rw [dispatch_timeout h e hk hp hw]; exact ⟨rfl, rfl, rfl⟩
      · cases hr : e.readResult with
        | error msg => rw [dispatch_readfail h e msg hk hp hr hw]; exact ⟨rfl, rfl, rfl⟩
        | ok d => rw [dispatch_capture h e d hk hp hr hw]; exact ⟨rfl, rfl, rfl⟩
    · rw [dispatch_not_qualifying h e (Or.inl hp)]; exact ⟨rfl, rfl, rfl⟩
  · rw [dispatch_not_qualifying h e (Or.inr hk)]; exact ⟨rfl, rfl, rfl⟩

/-- Once the start time is set it is never overwritten by any later event. -/
theorem dispatch_start_time_some (h : DimmTarCaptureHandler) (e : FsEvent)
    (st : ℚ) (hst : h.start_time = some st) :
    (dispatch h e).1.start_time = some st := by
  by_cases hk : e.kind = EventKind.closed
  · by_cases hp : e.src_path = h.source.str
    · by_cases hw : h.duration < e.now - effStart h e
      · rw [dispatch_timeout h e hk hp hw]; simp [effStart, hst]
      · cases hr : e.readResult with
        | error msg => rw [dispatch_readfail h e msg hk hp hr hw]; simp [effStart, hst]
        | ok d => rw [dispatch_capture h e d hk hp hr hw]; simp [effStart, hst]
    · rw [dispatch_not_qualifying h e (Or.inl hp)]; exact hst
  · rw [dispatch_not_qualifying h e (Or.inr hk)]; exact hst

/-- The termination flag is never cleared by a dispatch step. -/
theorem dispatch_stop_mono (h : DimmTarCaptureHandler) (e : FsEvent)
    (hs : h.stop_observer = true) : (dispatch h e).1.stop_observer = true := by
  by_cases hk : e.kind = EventKind.closed
  · by_cases hp : e.src_path = h.source.str
    · by_cases hw : h.duration < e.now - effStart h e
      · rw [dispatch_timeout h e hk hp hw]
      · cases hr : e.readResult with
        | error msg => rw [dispatch_readfail h e msg hk hp hr hw]; exact hs
        | ok d => rw [dispatch_capture h e d hk hp hr hw]; exact hs
    · rw [dispatch_not_qualifying h e (Or.inl hp)]; exact hs
  · rw [dispatch_not_qualifying h e (Or.inr hk)]; exact hs

/-- Running a trace never changes the configuration fields. -/
theorem runEvents_config (es : List FsEvent) :
    ∀ h : DimmTarCaptureHandler,
      (runEvents h es).1.source = h.source ∧
      (runEvents h es).1.tar_path = h.tar_path ∧
      (runEvents h es).1.duration = h.duration := by
  induction es with
  | nil => intro h; exact ⟨rfl, rfl, rfl⟩
  | cons e es ih =>
      intro h
      have hd := dispatch_config h e
      have ht := ih (dispatch h e).1
      simp only [runEvents]
      exact ⟨hd.1 ▸ ht.1, hd.2.1 ▸ ht.2.1, hd.2.2 ▸ ht.2.2⟩

/-- Running a trace preserves an already-set start time. -/
theorem runEvents_start_time_some (es : List FsEvent) :
    ∀ (h : DimmTarCaptureHandler) (st : ℚ), h.start_time = some st →
      (runEvents h es).1.start_time = some st := by
  induction es with
  | nil => intro h st hst; exact hst
  | cons e es ih =>
      intro h st hst
      simp only [runEvents]
      exact ih _ _ (dispatch_start_time_some h e st hst)

/-- Running a trace never clears the termination flag. -/
theorem runEvents_stop_mono (es : List FsEvent) :
    ∀ h : DimmTarCaptureHandler, h.stop_observer = true →
      (runEvents h es).1.stop_observer = true := by
  induction es with
  | nil => intro h hs; exact hs
  | cons e es ih =>
      intro h hs
      simp only [runEvents]
      exact ih _ (dispatch_stop_mono h e hs)

/-- After the session start, events that all arrive past the duration leave
the archive and the counter untouched (a qualifying one only re-sets the
flag; others are no-ops). -/
theorem runEvents_overrun (es : List FsEvent) :
    ∀ (h : DimmTarCaptureHandler) (st : ℚ), h.start_time = some st →
      (∀ e ∈ es, h.duration < e.now - st) →
      (runEvents h es).1.tar_entries = h.tar_entries ∧
      (runEvents h es).1.copy_count = h.copy_count := by
  induction es with
  | nil => intro h st _ _; exact ⟨rfl, rfl⟩
  | cons e es ih =>
      intro h st hst hall
      have heff : effStart h e = st := by simp [effStart, hst]
      simp only [runEvents]
      by_cases hk : e.kind = EventKind.closed
      · by_cases hp : e.src_path = h.source.str
        · have hw : h.duration < e.now - effStart h e := by
            rw [heff]; exact hall e (List.mem_cons_self e es)
          rw [dispatch_timeout h e hk hp hw, heff]
          exact ih _ st rfl (fun e2 he2 => hall e2 (List.mem_cons_of_mem e he2))
        · rw [dispatch_not_qualifying h e (Or.inl hp)]
          exact ih _ st hst (fun e2 he2 => hall e2 (List.mem_cons_of_mem e he2))
      · rw [dispatch_not_qualifying h e (Or.inr hk)]
        exact ih _ st hst (fun e2 he2 => hall e2 (List.mem_cons_of_mem e he2))

/-- A trace of qualifying, in-window, successfully-read events appends
exactly one member per event, in order, and counts each one. -/
theorem runEvents_all_ok (es : List FsEvent) :
    ∀ (h : DimmTarCaptureHandler) (st : ℚ), h.start_time = some st →
      (∀ e ∈ es, e.kind = EventKind.closed ∧ e.src_path = h.source.str ∧
        (∃ d, e.readResult = Except.ok d) ∧ e.now - st ≤ h.duration) →
      (runEvents h es).1.tar_entries =
          h.tar_entries ++ es.map (mkEntry h.source.stem) ∧
      (runEvents h es).1.copy_count = h.copy_count + es.length ∧
      (runEvents h es).1.start_time = some st := by
  induction es with
  | nil => intro h st hst _; simp [runEvents, hst]
  | cons e es ih =>
      intro h st hst hall
      obtain ⟨hk, hp, ⟨d, hr⟩, hwin⟩ := hall e (List.mem_cons_self e es)
      have heff : effStart h e = st := by simp [effStart, hst]
      have hw : ¬ h.duration < e.now - effStart h e := by
        rw [heff]; exact not_lt.mpr hwin
      simp only [runEvents]
      rw [dispatch_capture h e d hk hp hr hw, heff]
      have htail := ih
        { h with start_time := some st, copy_count := h.copy_count + 1,
                 tar_entries := h.tar_entries ++ [mkEntry h.source.stem e] }
        st rfl
        (fun e2 he2 => hall e2 (List.mem_cons_of_mem e he2))
      refine ⟨?_, ?_, htail.2.2⟩
      · rw [htail.1]; simp [List.append_assoc]
      · rw [htail.2.1]; simp [List.length_cons]; omega

/-! ### Injectivity of the timestamp rendering -/

theorem digitsLE_length (w : Nat) : ∀ n : Nat, (digitsLE w n).length = w := by
  induction w with
  | zero => intro n; rfl
  | succ w ih => intro n; simp [digitsLE, ih]

theorem digitsLE_lt_ten (w : Nat) :
    ∀ n : Nat, ∀ x ∈ digitsLE w n, x < 10 := by
  induction w with
  | zero => intro n x hx; simp [digitsLE] at hx
  | succ w ih =>
      intro n x hx
      simp only [digitsLE, List.mem_cons] at hx
      rcases hx with hx | hx
      · omega
      · exact ih _ x hx

theorem digitsLE_inj (w : Nat) :
    ∀ n m : Nat, n < 10 ^ w → m < 10 ^ w → digitsLE w n = digitsLE w m → n = m := by
  induction w with
  | zero => intro n m hn hm _; simp [pow_zero] at hn hm; omega
  | succ w ih =>
      intro n m hn hm heq
      simp only [digitsLE, List.cons.injEq] at heq
      have hn2 : n / 10 < 10 ^ w := by
        rw [Nat.div_lt_iff_lt_mul (by norm_num)]
        calc n < 10 ^ (w + 1) := hn
        _ = 10 ^ w * 10 := by ring
      have hm2 : m / 10 < 10 ^ w := by
        rw [Nat.div_lt_iff_lt_mul (by norm_num)]
        calc m < 10 ^ (w + 1) := hm
        _ = 10 ^ w * 10 := by ring
      have := ih _ _ hn2 hm2 heq.2
      omega

theorem digitChar_inj_lt : ∀ a < 10, ∀ b < 10, Nat.digitChar a = Nat.digitChar b → a = b := by
  decide

theorem map_digitChar_inj :
    ∀ l l2 : List Nat, (∀ x ∈ l, x < 10) → (∀ x ∈ l2, x < 10) →
      l.map Nat.digitChar = l2.map Nat.digitChar → l = l2 := by
  intro l
  induction l with
  | nil =>
      intro l2 _ _ heq
      cases l2 with
      | nil => rfl
      | cons b bs => simp at heq
  | cons a as ih =>
      intro l2 hl hl2 heq
      cases l2 with
      | nil => simp at heq
      | cons b bs =>
          simp only [List.map_cons, List.cons.injEq] at heq
          have ha : a < 10 := hl a (List.mem_cons_self a as)
          have hb : b < 10 := hl2 b (List.mem_cons_self b bs)
          have h1 : a = b := digitChar_inj_lt a ha b hb heq.1
          have h2 : as = bs :=
            ih bs (fun x hx => hl x (List.mem_cons_of_mem a hx))
              (fun x hx => hl2 x (List.mem_cons_of_mem b hx)) heq.2
          rw [h1, h2]

theorem padNum_data (w n : Nat) :
    (padNum w n).data = (digitsLE w n).reverse.map Nat.digitChar := rfl

theorem padNum_data_length (w n : Nat) : (padNum w n).data.length = w := by
  rw [padNum_data]
  simp [digitsLE_length]

theorem padNum_inj (w n m : Nat) (hn : n < 10 ^ w) (hm : m < 10 ^ w)
    (heq : padNum w n = padNum w m) : n = m := by
  have hdata : (padNum w n).data = (padNum w m).data := by rw [heq]
  rw [padNum_data, padNum_data] at hdata
  have hrev : (digitsLE w n).reverse = (digitsLE w m).reverse := by
    apply map_digitChar_inj
    · intro x hx; exact digitsLE_lt_ten w n x (List.mem_reverse.mp hx)
    · intro x hx; exact digitsLE_lt_ten w m x (List.mem_reverse.mp hx)
    · exact hdata
  exact digitsLE_inj w n m hn hm (List.reverse_injective hrev)

theorem padNum_length (w n : Nat) : (padNum w n).length = w :=
  padNum_data_length w n

theorem strftime_data_length (t : UtcDateTime) :
    t.strftimeYmdHMSf.data.length = 22 := by
  simp [UtcDateTime.strftimeYmdHMSf, String.data_append, padNum_data_length,
    padNum_length]

theorem padNum_data_inj (w n m : Nat) (hn : n < 10 ^ w) (hm : m < 10 ^ w)
    (heq : (padNum w n).data = (padNum w m).data) : n = m :=
  padNum_inj w n m hn hm (String.ext heq)

/-- On field values datetime can produce, the strftime rendering is
injective: distinct UTC readings give distinct timestamp strings. -/
theorem strftime_inj (t1 t2 : UtcDateTime) (v1 : t1.Valid) (v2 : t2.Valid)
    (heq : t1.strftimeYmdHMSf = t2.strftimeYmdHMSf) : t1 = t2 := by
  obtain ⟨y1, mo1, d1, hh1, mi1, s1, us1⟩ := t1
  obtain ⟨y2, mo2, d2, hh2, mi2, s2, us2⟩ := t2
  obtain ⟨_, hy1, _, hmo1, _, hd1, hhh1, hmi1, hs1, hus1⟩ := v1
  obtain ⟨_, hy2, _, hmo2, _, hd2, hhh2, hmi2, hs2, hus2⟩ := v2
  simp only at hy1 hmo1 hd1 hhh1 hmi1 hs1 hus1 hy2 hmo2 hd2 hhh2 hmi2 hs2 hus2
  have hdata := congrArg String.data heq
  simp only [UtcDateTime.strftimeYmdHMSf, String.data_append] at hdata
  obtain ⟨h8, hus⟩ := List.append_inj' hdata
    (by rw [padNum_data_length, padNum_data_length])
  obtain ⟨h7, _⟩ := List.append_inj' h8 rfl
  obtain ⟨h6, hs⟩ := List.append_inj' h7
    (by rw [padNum_data_length, padNum_data_length])
  obtain ⟨h5, hmi⟩ := List.append_inj' h6
    (by rw [padNum_data_length, padNum_data_length])
  obtain ⟨h4, hhh⟩ := List.append_inj' h5
    (by rw [padNum_data_length, padNum_data_length])
  obtain ⟨h3, _⟩ := List.append_inj' h4 rfl
  obtain ⟨h2, hd⟩ := List.append_inj' h3
    (by rw [padNum_data_length, padNum_data_length])
  obtain ⟨hy, hmo⟩ := List.append_inj' h2
    (by rw [padNum_data_length, padNum_data_length])
  simp only [UtcDateTime.mk.injEq]
  refine ⟨?_, ?_, ?_, ?_, ?_, ?_, ?_⟩
  · exact padNum_data_inj 4 y1 y2 (Nat.lt_of_le_of_lt hy1 (by norm_num))
      (Nat.lt_of_le_of_lt hy2 (by norm_num)) hy
  · exact padNum_data_inj 2 mo1 mo2 (Nat.lt_of_le_of_lt hmo1 (by norm_num))
      (Nat.lt_of_le_of_lt hmo2 (by norm_num)) hmo
  · exact padNum_data_inj 2 d1 d2 (Nat.lt_of_le_of_lt hd1 (by norm_num))
      (Nat.lt_of_le_of_lt hd2 (by norm_num)) hd
  · exact padNum_data_inj 2 hh1 hh2 (Nat.lt_of_le_of_lt hhh1 (by norm_num))
      (Nat.lt_of_le_of_lt hhh2 (by norm_num)) hhh
  · exact padNum_data_inj 2 mi1 mi2 (Nat.lt_of_le_of_lt hmi1 (by norm_num))
      (Nat.lt_of_le_of_lt hmi2 (by norm_num)) hmi
  · exact padNum_data_inj 2 s1 s2 (Nat.lt_of_le_of_lt hs1 (by norm_num))
      (Nat.lt_of_le_of_lt hs2 (by norm_num)) hs
  · exact padNum_data_inj 6 us1 us2 (Nat.lt_of_le_of_lt hus1 (by norm_num))
      (Nat.lt_of_le_of_lt hus2 (by norm_num)) hus

/-- Entry names built from one stem are distinct whenever the embedded UTC
readings are distinct (and valid). -/
theorem entryName_inj (stem : String) (t1 t2 : UtcDateTime)
    (v1 : t1.Valid) (v2 : t2.Valid)
    (heq : stem ++ "_" ++ t1.strftimeYmdHMSf ++ ".fits" =
      stem ++ "_" ++ t2.strftimeYmdHMSf ++ ".fits") : t1 = t2 := by
  have hdata := congrArg String.data heq
  simp only [String.data_append] at hdata
  obtain ⟨hmid, _⟩ := List.append_inj' hdata rfl
  obtain ⟨_, hfmt⟩ := List.append_inj' hmid
    (by rw [strftime_data_length, strftime_data_length])
  exact strftime_inj t1 t2 v1 v2 (String.ext hfmt)

/-! ### Claims -/

/-- Claim C5: an event whose path is not exactly the watched source path, or
whose kind is not write-complete, has no side effects: no archive entry, and
the frame counter, session start time and termination flag are unchanged
(the whole handler state and output are untouched). -/
theorem claim5_non_qualifying_no_effect (h : DimmTarCaptureHandler) (e : FsEvent)
    (hne : e.src_path ≠ h.source.str ∨ e.kind ≠ EventKind.closed) :
    dispatch h e = (h, []) :=
  dispatch_not_qualifying h e hne

/-- Witness for claim C5: a write-complete event for an unrelated path, and
a modify event for the watched path, are both complete no-ops. -/
theorem claim5_witness :
    dispatch sampleHandler otherPathEvent = (sampleHandler, []) ∧
    dispatch sampleHandler modifyEvent = (sampleHandler, []) :=
  ⟨claim5_non_qualifying_no_effect sampleHandler otherPathEvent
      (Or.inl (by decide)),
    claim5_non_qualifying_no_effect sampleHandler modifyEvent
      (Or.inr (by decide))⟩

/-- Claim C3: a qualifying event whose elapsed time (now minus session
start) exceeds the configured duration sets the termination flag and is not
captured, and no later event — delivered at the same or any later clock
reading — ever changes the archive or the frame counter again; the flag
stays set. -/
theorem claim3_overrun_terminates (h : DimmTarCaptureHandler) (e : FsEvent)
    (es : List FsEvent) (st : ℚ)
    (hst : h.start_time = some st)
    (hk : e.kind = EventKind.closed) (hp : e.src_path = h.source.str)
    (hover : h.duration < e.now - st)
    (hmono : ∀ e2 ∈ es, e.now ≤ e2.now) :
    (dispatch h e).1.stop_observer = true ∧
    (dispatch h e).1.tar_entries = h.tar_entries ∧
    (dispatch h e).1.copy_count = h.copy_count ∧
    (runEvents (dispatch h e).1 es).1.tar_entries = h.tar_entries ∧
    (runEvents (dispatch h e).1 es).1.copy_count = h.copy_count ∧
    (runEvents (dispatch h e).1 es).1.stop_observer = true := by
  have heff : effStart h e = st := by simp [effStart, hst]
  have hw : h.duration < e.now - effStart h e := by rw [heff]; exact hover
  rw [dispatch_timeout h e hk hp hw, heff]
  have hlater : ∀ e2 ∈ es,
      ({ h with start_time := some st, stop_observer := true } :
        DimmTarCaptureHandler).duration < e2.now - st := by
    intro e2 he2
    have h2 := hmono e2 he2
    show h.duration < e2.now - st
    linarith
  refine ⟨rfl, rfl, rfl, ?_, ?_, ?_⟩
  · exact (runEvents_overrun es _ st rfl hlater).1
  · exact (runEvents_overrun es _ st rfl hlater).2
  · exact runEvents_stop_mono es _ rfl

/-- Witness for claim C3: with a session started at t = 100 and duration
30 s, a qualifying event at t = 200 terminates the session and neither it
nor a qualifying event at t = 300 adds an entry. -/
theorem claim3_witness :
    (dispatch startedHandler (okEvent 200 sampleUtc1 [65])).1.stop_observer = true ∧
    (dispatch startedHandler (okEvent 200 sampleUtc1 [65])).1.tar_entries =
      startedHandler.tar_entries ∧
    (dispatch startedHandler (okEvent 200 sampleUtc1 [65])).1.copy_count =
      startedHandler.copy_count ∧
    (runEvents (dispatch startedHandler (okEvent 200 sampleUtc1 [65])).1
        [okEvent 300 sampleUtc2 [66]]).1.tar_entries =
      startedHandler.tar_entries ∧
    (runEvents (dispatch startedHandler (okEvent 200 sampleUtc1 [65])).1
        [okEvent 300 sampleUtc2 [66]]).1.copy_count =
      startedHandler.copy_count ∧
    (runEvents (dispatch startedHandler (okEvent 200 sampleUtc1 [65])).1
        [okEvent 300 sampleUtc2 [66]]).1.stop_observer = true :=
  claim3_overrun_terminates startedHandler (okEvent 200 sampleUtc1 [65])
    [okEvent 300 sampleUtc2 [66]] 100 rfl rfl rfl
    (by norm_num [startedHandler, sampleHandler, DimmTarCaptureHandler.init, okEvent])
    (by
      intro e2 he2
      simp only [List.mem_singleton] at he2
      subst he2
      norm_num [okEvent])

/-- Claim C4: a qualifying in-window event whose read fails is caught and
logged with its message, and the session continues: the flag is not set,
the counter and archive are unchanged, and a later qualifying in-window
event with a successful read is still captured. -/
theorem claim4_read_failure_recoverable (h : DimmTarCaptureHandler)
    (e e2 : FsEvent) (msg : String) (d : List Nat)
    (hk : e.kind = EventKind.closed) (hp : e.src_path = h.source.str)
    (hr : e.readResult = Except.error msg)
    (hw : ¬ h.duration < e.now - effStart h e)
    (hk2 : e2.kind = EventKind.closed) (hp2 : e2.src_path = h.source.str)
    (hr2 : e2.readResult = Except.ok d)
    (hw2 : ¬ h.duration < e2.now - effStart h e) :
    (dispatch h e).1.stop_observer = h.stop_observer ∧
    (dispatch h e).1.copy_count = h.copy_count ∧
    (dispatch h e).1.tar_entries = h.tar_entries ∧
    LogMsg.captureError msg ∈ (dispatch h e).2 ∧
    (dispatch (dispatch h e).1 e2).1.copy_count = h.copy_count + 1 ∧
    (dispatch (dispatch h e).1 e2).1.tar_entries =
      h.tar_entries ++ [mkEntry h.source.stem e2] := by
  have heq1 := dispatch_readfail h e msg hk hp hr hw
  have heq2 := dispatch_capture ({ h with start_time := some (effStart h e) })
    e2 d hk2 hp2 hr2 hw2
  refine ⟨?_, ?_, ?_, ?_, ?_, ?_⟩
  · simp only [heq1]
  · simp only [heq1]
  · simp only [heq1]
  · simp [heq1]
  · simp only [heq1, heq2]
  · simp only [heq1, heq2]

/-- Witness for claim C4: in a session started at t = 100 (duration 30), a
failing read at t = 110 changes nothing and is logged, and a successful
read at t = 120 is then captured. -/
theorem claim4_witness :
    (dispatch startedHandler (failEvent 110 sampleUtc1 "Errno 13")).1.copy_count =
      startedHandler.copy_count ∧
    (dispatch startedHandler (failEvent 110 sampleUtc1 "Errno 13")).1.tar_entries =
      startedHandler.tar_entries ∧
    LogMsg.captureError "Errno 13" ∈
      (dispatch startedHandler (failEvent 110 sampleUtc1 "Errno 13")).2 ∧
    (dispatch (dispatch startedHandler (failEvent 110 sampleUtc1 "Errno 13")).1
        (okEvent 120 sampleUtc2 [66, 67])).1.copy_count =
      startedHandler.copy_count + 1 := by
  have happ := claim4_read_failure_recoverable startedHandler
    (failEvent 110 sampleUtc1 "Errno 13") (okEvent 120 sampleUtc2 [66, 67])
    "Errno 13" [66, 67] rfl rfl rfl
    (by norm_num [startedHandler, sampleHandler, DimmTarCaptureHandler.init,
      failEvent, effStart])
    rfl rfl rfl
    (by norm_num [startedHandler, sampleHandler, DimmTarCaptureHandler.init,
      failEvent, okEvent, effStart])
  exact ⟨happ.2.1, happ.2.2.1, happ.2.2.2.1, happ.2.2.2.2.1⟩

/-- Claim C7: the session start time is unset at construction and is
assigned exactly on the first qualifying event (with a one-time capture
started message), never overwritten afterwards; the timeout test compares
the configured duration against time elapsed since that first qualifying
event. -/
theorem claim7_lazy_session_start (source : PyPath) (tp : String) (dur : ℚ)
    (h : DimmTarCaptureHandler) (e : FsEvent) (st : ℚ)
    (hk : e.kind = EventKind.closed) (hp : e.src_path = h.source.str) :
    (DimmTarCaptureHandler.init source tp dur).start_time = none ∧
    (h.start_time = none →
      (dispatch h e).1.start_time = some e.now ∧
      LogMsg.firstFrame ∈ (dispatch h e).2) ∧
    (h.start_time = some st →
      (dispatch h e).1.start_time = some st ∧
      LogMsg.firstFrame ∉ (dispatch h e).2) ∧
    (h.start_time = some st → h.stop_observer = false →
      ((dispatch h e).1.stop_observer = true ↔ h.duration < e.now - st)) := by
  refine ⟨rfl, ?_, ?_, ?_⟩
  · intro hst
    have heff : effStart h e = e.now := by simp [effStart, hst]
    by_cases hw : h.duration < e.now - effStart h e
    · simp [dispatch_timeout h e hk hp hw, heff, hst]
    · cases hr : e.readResult with
      | error msg => simp [dispatch_readfail h e msg hk hp hr hw, heff, hst]
      | ok d => simp [dispatch_capture h e d hk hp hr hw, heff, hst]
  · intro hst
    have heff : effStart h e = st := by simp [effStart, hst]
    by_cases hw : h.duration < e.now - effStart h e
    · simp [dispatch_timeout h e hk hp hw, heff, hst]
    · cases hr : e.readResult with
      | error msg => simp [dispatch_readfail h e msg hk hp hr hw, heff, hst]
      | ok d =>
          simp only [dispatch_capture h e d hk hp hr hw, heff, hst]
          simp [hst]
  · intro hst hflag
    have heff : effStart h e = st := by simp [effStart, hst]
    by_cases hw : h.duration < e.now - effStart h e
    · have hw2 : h.duration < e.now - st := by rwa [heff] at hw
      simp [dispatch_timeout h e hk hp hw, hw2]
    · have hw2 : ¬ h.duration < e.now - st := by rwa [heff] at hw
      cases hr : e.readResult with
      | error msg => simp [dispatch_readfail h e msg hk hp hr hw, hflag, hw2]
      | ok d => simp [dispatch_capture h e d hk hp hr hw, hflag, hw2]

/-- Witness for claim C7: a first qualifying event at t = 100 sets the
start time and prints the one-time message; in a started session a later
qualifying event keeps the start time, prints no such message, and an
event at t = 150 with duration 30 trips the timeout test. -/
theorem claim7_witness :
    (dispatch sampleHandler (okEvent 100 sampleUtc1 [65])).1.start_time = some 100 ∧
    LogMsg.firstFrame ∈ (dispatch sampleHandler (okEvent 100 sampleUtc1 [65])).2 ∧
    (dispatch startedHandler (okEvent 120 sampleUtc2 [66])).1.start_time = some 100 ∧
    LogMsg.firstFrame ∉ (dispatch startedHandler (okEvent 120 sampleUtc2 [66])).2 ∧
    (dispatch startedHandler (okEvent 150 sampleUtc2 [66])).1.stop_observer = true := by
  have ha := (claim7_lazy_session_start samplePath "dimm_data.tar.gz" 30
    sampleHandler (okEvent 100 sampleUtc1 [65]) 100 rfl rfl).2.1 rfl
  have hb := (claim7_lazy_session_start samplePath "dimm_data.tar.gz" 30
    startedHandler (okEvent 120 sampleUtc2 [66]) 100 rfl rfl).2.2.1 rfl
  have hc := ((claim7_lazy_session_start samplePath "dimm_data.tar.gz" 30
    startedHandler (okEvent 150 sampleUtc2 [66]) 100 rfl rfl).2.2.2 rfl rfl).mpr
    (by norm_num [startedHandler, sampleHandler, DimmTarCaptureHandler.init, okEvent])
  exact ⟨ha.1, ha.2, hb.1, hb.2, hc⟩

/-- Claim C8: a captured frame's archive entry carries the name
stem_YYYYMMDD_HHMMSS_microseconds.fits built from the source stem and the
UTC reading, a size equal to the exact byte length read, and the
capture-time wall clock as mtime; the handler never consults the source
file's own mtime. -/
theorem claim8_entry_attributes (h : DimmTarCaptureHandler) (e : FsEvent)
    (d : List Nat)
    (hk : e.kind = EventKind.closed) (hp : e.src_path = h.source.str)
    (hr : e.readResult = Except.ok d)
    (hw : ¬ h.duration < e.now - effStart h e) :
    (dispatch h e).1.tar_entries =
      h.tar_entries ++
        [{ info := { name := h.source.stem ++ "_" ++ e.utc.strftimeYmdHMSf ++ ".fits",
                     size := d.length, mtime := e.now },
           data := d }] ∧
    (∀ m : ℚ, dispatch h { e with sourceMtime := m } = dispatch h e) := by
  constructor
  · simp [dispatch_capture h e d hk hp hr hw, mkEntry, readBytes, hr]
  · intro m
    rcases e with ⟨k, p, now, utc, smt, rr⟩
    cases k <;> rfl

/-- Witness for claim C8: the frame captured at t = 110 in a session
started at t = 100 is stored under the rendered timestamp name with its
two bytes and mtime 110. -/
theorem claim8_witness :
    (dispatch startedHandler (okEvent 110 sampleUtc1 [65, 66])).1.tar_entries =
      startedHandler.tar_entries ++
        [{ info := { name := startedHandler.source.stem ++ "_" ++
                       (okEvent 110 sampleUtc1 [65, 66]).utc.strftimeYmdHMSf ++ ".fits",
                     size := 2, mtime := 110 },
           data := [65, 66] }] ∧
    dispatch startedHandler { okEvent 110 sampleUtc1 [65, 66] with sourceMtime := 42 } =
      dispatch startedHandler (okEvent 110 sampleUtc1 [65, 66]) := by
  have happ := claim8_entry_attributes startedHandler (okEvent 110 sampleUtc1 [65, 66])
    [65, 66] rfl rfl rfl
    (by norm_num [startedHandler, sampleHandler, DimmTarCaptureHandler.init,
      okEvent, effStart])
  exact ⟨happ.1, happ.2 42⟩

/-- Claim C9: with a nonnegative configured duration, the first qualifying
event is never dropped by the timeout test: the start time is set in the
same invocation, elapsed is zero, the strict comparison fails, and a
capture is attempted (an entry on a successful read, a logged error on a
failed one). -/
theorem claim9_first_event_not_dropped (h : DimmTarCaptureHandler) (e : FsEvent)
    (hk : e.kind = EventKind.closed) (hp : e.src_path = h.source.str)
    (hst : h.start_time = none) (hflag : h.stop_observer = false)
    (hd : 0 ≤ h.duration) :
    (dispatch h e).1.stop_observer = false ∧
    (∀ d : List Nat, e.readResult = Except.ok d →
      (dispatch h e).1.copy_count = h.copy_count + 1) ∧
    (∀ msg : String, e.readResult = Except.error msg →
      (dispatch h e).1.copy_count = h.copy_count ∧
      LogMsg.captureError msg ∈ (dispatch h e).2) := by
  have heff : effStart h e = e.now := by simp [effStart, hst]
  have hw : ¬ h.duration < e.now - effStart h e := by
    rw [heff, sub_self]
    exact not_lt.mpr hd
  refine ⟨?_, ?_, ?_⟩
  · cases hr : e.readResult with
    | error msg => simp [dispatch_readfail h e msg hk hp hr hw, hflag]
    | ok d => simp [dispatch_capture h e d hk hp hr hw, hflag]
  · intro d hrd
    simp [dispatch_capture h e d hk hp hrd hw]
  · intro msg hrm
    simp [dispatch_readfail h e msg hk hp hrm hw]

/-- Witness for claim C9: the very first qualifying event (read succeeds,
duration 30) is captured, leaving the flag clear and the counter at 1. -/
theorem claim9_witness :
    (dispatch sampleHandler (okEvent 100 sampleUtc1 [65])).1.stop_observer = false ∧
    (dispatch sampleHandler (okEvent 100 sampleUtc1 [65])).1.copy_count =
      sampleHandler.copy_count + 1 := by
  have happ := claim9_first_event_not_dropped sampleHandler
    (okEvent 100 sampleUtc1 [65]) rfl rfl rfl rfl
    (by norm_num [sampleHandler, DimmTarCaptureHandler.init])
  exact ⟨happ.1, happ.2.1 [65] rfl⟩

/-- Unfolding equation for the run of a nonempty trace. -/
theorem runEvents_cons_fst (h : DimmTarCaptureHandler) (e : FsEvent)
    (es : List FsEvent) :
    (runEvents h (e :: es)).1 = (runEvents (dispatch h e).1 es).1 := rfl

/-- Claim C2: a trace of N qualifying write-complete events inside the
duration window, each read succeeding, with valid strictly increasing UTC
readings, yields an archive of exactly N entries whose i-th payload is the
i-th read, whose i-th name embeds the i-th UTC reading, and whose names
are pairwise distinct. -/
theorem claim2_all_frames_archived (source : PyPath) (tp : String) (dur : ℚ)
    (e0 : FsEvent) (rest : List FsEvent)
    (hq : ∀ e ∈ e0 :: rest, e.kind = EventKind.closed ∧ e.src_path = source.str ∧
      (∃ d, e.readResult = Except.ok d) ∧ e.now - e0.now ≤ dur)
    (hvalid : ∀ e ∈ e0 :: rest, e.utc.Valid)
    (hinc : List.Pairwise (fun a b : FsEvent => a.utc.key < b.utc.key) (e0 :: rest)) :
    (runEvents (DimmTarCaptureHandler.init source tp dur) (e0 :: rest)).1.tar_entries.length =
      (e0 :: rest).length ∧
    (runEvents (DimmTarCaptureHandler.init source tp dur) (e0 :: rest)).1.tar_entries.map
        TarEntry.data = (e0 :: rest).map readBytes ∧
    (runEvents (DimmTarCaptureHandler.init source tp dur) (e0 :: rest)).1.tar_entries.map
        (fun en => en.info.name) =
      (e0 :: rest).map
        (fun e => source.stem ++ "_" ++ e.utc.strftimeYmdHMSf ++ ".fits") ∧
    List.Pairwise (fun a b : TarEntry => a.info.name ≠ b.info.name)
      (runEvents (DimmTarCaptureHandler.init source tp dur) (e0 :: rest)).1.tar_entries := by
  obtain ⟨hk0, hp0, ⟨d0, hr0⟩, hwin0⟩ := hq e0 (List.mem_cons_self e0 rest)
  rw [sub_self] at hwin0
  have hw0 : ¬ (DimmTarCaptureHandler.init source tp dur).duration <
      e0.now - effStart (DimmTarCaptureHandler.init source tp dur) e0 := by
    show ¬ dur < e0.now - e0.now
    rw [sub_self]
    exact not_lt.mpr hwin0
  have hstep := dispatch_capture (DimmTarCaptureHandler.init source tp dur) e0 d0
    hk0 hp0 hr0 hw0
  have hmain := runEvents_all_ok rest
    ({ DimmTarCaptureHandler.init source tp dur with
        start_time := some (effStart (DimmTarCaptureHandler.init source tp dur) e0),
        copy_count := (DimmTarCaptureHandler.init source tp dur).copy_count + 1,
        tar_entries := (DimmTarCaptureHandler.init source tp dur).tar_entries ++
          [mkEntry (DimmTarCaptureHandler.init source tp dur).source.stem e0] })
    e0.now rfl
    (fun e he =>
      ⟨(hq e (List.mem_cons_of_mem e0 he)).1, (hq e (List.mem_cons_of_mem e0 he)).2.1,
        (hq e (List.mem_cons_of_mem e0 he)).2.2.1, (hq e (List.mem_cons_of_mem e0 he)).2.2.2⟩)
  have hentries : (runEvents (DimmTarCaptureHandler.init source tp dur)
      (e0 :: rest)).1.tar_entries = (e0 :: rest).map (mkEntry source.stem) := by
    rw [runEvents_cons_fst]
    simp only [hstep]
    rw [hmain.1]
    simp [mkEntry, DimmTarCaptureHandler.init]
  refine ⟨?_, ?_, ?_, ?_⟩
  · rw [hentries, List.length_map]
  · rw [hentries, List.map_map]
    simp [mkEntry, Function.comp]
  · rw [hentries, List.map_map]
    simp [mkEntry, Function.comp]
  · rw [hentries]
    rw [List.pairwise_map]
    refine List.Pairwise.imp_of_mem ?_ hinc
    intro a b ha hb hlt heqname
    have hname : source.stem ++ "_" ++ a.utc.strftimeYmdHMSf ++ ".fits" =
        source.stem ++ "_" ++ b.utc.strftimeYmdHMSf ++ ".fits" := by
      simpa [mkEntry] using heqname
    have := entryName_inj source.stem a.utc b.utc (hvalid a ha) (hvalid b hb) hname
    rw [this] at hlt
    exact lt_irrefl _ hlt

/-- Witness for claim C2: two qualifying reads at t = 100 and t = 110
(duration 30) give an archive of exactly two entries, payloads in order,
names embedding the two UTC readings, pairwise distinct. -/
theorem claim2_witness :
    (runEvents (DimmTarCaptureHandler.init samplePath "dimm_data.tar.gz" 30)
        [okEvent 100 sampleUtc1 [65, 66], okEvent 110 sampleUtc2 [67]]).1.tar_entries.length =
      [okEvent 100 sampleUtc1 [65, 66], okEvent 110 sampleUtc2 [67]].length ∧
    (runEvents (DimmTarCaptureHandler.init samplePath "dimm_data.tar.gz" 30)
        [okEvent 100 sampleUtc1 [65, 66], okEvent 110 sampleUtc2 [67]]).1.tar_entries.map
        TarEntry.data =
      [okEvent 100 sampleUtc1 [65, 66], okEvent 110 sampleUtc2 [67]].map readBytes ∧
    (runEvents (DimmTarCaptureHandler.init samplePath "dimm_data.tar.gz" 30)
        [okEvent 100 sampleUtc1 [65, 66], okEvent 110 sampleUtc2 [67]]).1.tar_entries.map
        (fun en => en.info.name) =
      [okEvent 100 sampleUtc1 [65, 66], okEvent 110 sampleUtc2 [67]].map
        (fun e => samplePath.stem ++ "_" ++ e.utc.strftimeYmdHMSf ++ ".fits") ∧
    List.Pairwise (fun a b : TarEntry => a.info.name ≠ b.info.name)
      (runEvents (DimmTarCaptureHandler.init samplePath "dimm_data.tar.gz" 30)
        [okEvent 100 sampleUtc1 [65, 66], okEvent 110 sampleUtc2 [67]]).1.tar_entries :=
  claim2_all_frames_archived samplePath "dimm_data.tar.gz" 30
    (okEvent 100 sampleUtc1 [65, 66]) [okEvent 110 sampleUtc2 [67]]
    (by
      intro e he
      simp only [List.mem_cons, List.not_mem_nil, or_false] at he
      rcases he with rfl | rfl
      · exact ⟨rfl, rfl, ⟨[65, 66], rfl⟩, by norm_num [okEvent]⟩
      · exact ⟨rfl, rfl, ⟨[67], rfl⟩, by norm_num [okEvent]⟩)
    (by
      intro e he
      simp only [List.mem_cons, List.not_mem_nil, or_false] at he
      rcases he with rfl | rfl
      · decide
      · decide)
    (by
      constructor
      · intro b hb
        simp only [List.mem_singleton] at hb
        subst hb
        decide
      · exact List.pairwise_singleton _ _)

/-- Claim C6: once the source-exists check passes and the wait loop is
reached, the tar archive is closed exactly once, whichever way the loop
exits (flag-driven timeout, operator interrupt, or a propagating error):
the finally-style cleanup runs unconditionally. -/
theorem claim6_close_exactly_once (source : PyPath) (tp : String) (dur : ℚ)
    (events : List FsEvent) (exit : LoopExit) :
    (capture_dimm_to_tar source tp dur true events exit).closeCalls = 1 := by
  unfold capture_dimm_to_tar
  rw [if_neg (by simp)]
  cases exit with
  | error msg => rfl
  | timeout => dsimp only; split <;> rfl
  | interrupt => dsimp only; split <;> rfl

/-- A trace containing no qualifying event leaves the handler in its
initial state and prints nothing. -/
theorem runEvents_no_qualifying (es : List FsEvent) :
    ∀ h : DimmTarCaptureHandler,
      (∀ e ∈ es, e.src_path ≠ h.source.str ∨ e.kind ≠ EventKind.closed) →
      runEvents h es = (h, []) := by
  induction es with
  | nil => intro h _; rfl
  | cons e es ih =>
      intro h hall
      have h1 := dispatch_not_qualifying h e (hall e (List.mem_cons_self e es))
      have h2 := ih h (fun e2 he2 => hall e2 (List.mem_cons_of_mem e he2))
      simp [runEvents, h1, h2]

/-- Counterexample to claim C1 as stated: one qualifying event whose read
fails gives a session with zero captured frames, yet because the start
time was set the script prints the summary block (reporting 0 frames) and
leaves the archive file on disk instead of deleting it. -/
theorem claim1_counterexample :
    (capture_dimm_to_tar samplePath "dimm_data.tar.gz" 30 true
        [failEvent 110 sampleUtc1 "Errno 13"] LoopExit.interrupt).handler.map
        DimmTarCaptureHandler.copy_count = some 0 ∧
    (capture_dimm_to_tar samplePath "dimm_data.tar.gz" 30 true
        [failEvent 110 sampleUtc1 "Errno 13"] LoopExit.interrupt).archiveOnDisk = true ∧
    LogMsg.noFrames ∉
      (capture_dimm_to_tar samplePath "dimm_data.tar.gz" 30 true
        [failEvent 110 sampleUtc1 "Errno 13"] LoopExit.interrupt).logs ∧
    LogMsg.summary 0 ∈
      (capture_dimm_to_tar samplePath "dimm_data.tar.gz" 30 true
        [failEvent 110 sampleUtc1 "Errno 13"] LoopExit.interrupt).logs := by
  have hstep := dispatch_readfail
    (DimmTarCaptureHandler.init samplePath "dimm_data.tar.gz" 30)
    (failEvent 110 sampleUtc1 "Errno 13") "Errno 13" rfl rfl rfl
    (by norm_num [DimmTarCaptureHandler.init, failEvent, effStart])
  have hstep2 : dispatch
      { source := samplePath, tar_path := "dimm_data.tar.gz", duration := 30,
        start_time := none, copy_count := 0, stop_observer := false, tar_entries := [] }
      { kind := EventKind.closed, src_path := samplePath.str, now := 110,
        utc := sampleUtc1, sourceMtime := 7, readResult := Except.error "Errno 13" } =
      ({ source := samplePath, tar_path := "dimm_data.tar.gz", duration := 30,
         start_time := some 110, copy_count := 0, stop_observer := false,
         tar_entries := [] },
       [LogMsg.firstFrame, LogMsg.captureError "Errno 13"]) := by
    simpa [DimmTarCaptureHandler.init, failEvent, effStart] using hstep
  refine ⟨?_, ?_, ?_, ?_⟩ <;>
    norm_num [capture_dimm_to_tar, runEvents, hstep2, pyTruthyFloat,
      DimmTarCaptureHandler.init, failEvent] <;>
    decide

/-- Claim C1 as amended: when no qualifying event ever occurred (so the
session start time was never set) and the wait loop ends normally (timeout
or operator interrupt, not a propagating error), the archive file is
deleted, the call returns None, the no-data notice is printed and no
summary is. -/
theorem claim1_amended (source : PyPath) (tp : String) (dur : ℚ)
    (events : List FsEvent) (exit : LoopExit)
    (hexit : ∀ msg, exit ≠ LoopExit.error msg)
    (hnoq : ∀ e ∈ events, e.src_path ≠ source.str ∨ e.kind ≠ EventKind.closed) :
    (capture_dimm_to_tar source tp dur true events exit).archiveOnDisk = false ∧
    (capture_dimm_to_tar source tp dur true events exit).retval = Except.ok none ∧
    LogMsg.noFrames ∈ (capture_dimm_to_tar source tp dur true events exit).logs ∧
    ∀ n, LogMsg.summary n ∉ (capture_dimm_to_tar source tp dur true events exit).logs := by
  have hrun := runEvents_no_qualifying events
    (DimmTarCaptureHandler.init source tp dur) (fun e he => hnoq e he)
  have hst : (DimmTarCaptureHandler.init source tp dur).start_time = none := rfl
  cases exit with
  | error msg => exact absurd rfl (hexit msg)
  | timeout =>
      refine ⟨?_, ?_, ?_, ?_⟩ <;>
        simp [capture_dimm_to_tar, hrun, hst, pyTruthyFloat]
  | interrupt =>
      refine ⟨?_, ?_, ?_, ?_⟩ <;>
        simp [capture_dimm_to_tar, hrun, hst, pyTruthyFloat]

/-- Witness for the amended claim C1: a modify event and an unrelated-path
event, then a timeout: archive gone, None returned, notice printed, no
summary. -/
theorem claim1_witness :
    (capture_dimm_to_tar samplePath "dimm_data.tar.gz" 30 true
        [modifyEvent, otherPathEvent] LoopExit.timeout).archiveOnDisk = false ∧
    (capture_dimm_to_tar samplePath "dimm_data.tar.gz" 30 true
        [modifyEvent, otherPathEvent] LoopExit.timeout).retval = Except.ok none ∧
    LogMsg.noFrames ∈ (capture_dimm_to_tar samplePath "dimm_data.tar.gz" 30 true
        [modifyEvent, otherPathEvent] LoopExit.timeout).logs ∧
    ∀ n, LogMsg.summary n ∉ (capture_dimm_to_tar samplePath "dimm_data.tar.gz" 30 true
        [modifyEvent, otherPathEvent] LoopExit.timeout).logs :=
  claim1_amended samplePath "dimm_data.tar.gz" 30 [modifyEvent, otherPathEvent]
    LoopExit.timeout (fun msg h => LoopExit.noConfusion h)
    (by
      intro e he
      simp only [List.mem_cons, List.not_mem_nil, or_false] at he
      rcases he with rfl | rfl
      · exact Or.inr (by decide)
      · exact Or.inl (by decide))

/-- Counterexample to claim C10 as stated: a qualifying event delivered at
wall-clock reading 0 sets the session start time (to 0.0) and even captures
a frame, yet the entry point returns None (and deletes the archive),
because the summary branch tests Python truthiness of start_time and 0.0
is falsy. -/
theorem claim10_counterexample :
    (capture_dimm_to_tar samplePath "dimm_data.tar.gz" 30 true
        [okEvent 0 sampleUtc1 [65]] LoopExit.interrupt).handler.map
        DimmTarCaptureHandler.start_time = some (some 0) ∧
    (capture_dimm_to_tar samplePath "dimm_data.tar.gz" 30 true
        [okEvent 0 sampleUtc1 [65]] LoopExit.interrupt).handler.map
        DimmTarCaptureHandler.copy_count = some 1 ∧
    (capture_dimm_to_tar samplePath "dimm_data.tar.gz" 30 true
        [okEvent 0 sampleUtc1 [65]] LoopExit.interrupt).retval = Except.ok none ∧
    (capture_dimm_to_tar samplePath "dimm_data.tar.gz" 30 true
        [okEvent 0 sampleUtc1 [65]] LoopExit.interrupt).archiveOnDisk = false := by
  have hstep := dispatch_capture
    (DimmTarCaptureHandler.init samplePath "dimm_data.tar.gz" 30)
    (okEvent 0 sampleUtc1 [65]) [65] rfl rfl rfl
    (by norm_num [DimmTarCaptureHandler.init, okEvent, effStart])
  have hstep2 : dispatch
      { source := samplePath, tar_path := "dimm_data.tar.gz", duration := 30,
        start_time := none, copy_count := 0, stop_observer := false, tar_entries := [] }
      { kind := EventKind.closed, src_path := samplePath.str, now := 0,
        utc := sampleUtc1, sourceMtime := 7, readResult := Except.ok [65] } =
      ({ source := samplePath, tar_path := "dimm_data.tar.gz", duration := 30,
         start_time := some 0, copy_count := 1, stop_observer := false,
         tar_entries := [mkEntry samplePath.stem (okEvent 0 sampleUtc1 [65])] },
       [LogMsg.firstFrame]) := by
    simpa [DimmTarCaptureHandler.init, okEvent, effStart] using hstep
  refine ⟨?_, ?_, ?_, ?_⟩ <;>
    norm_num [capture_dimm_to_tar, runEvents, hstep2, pyTruthyFloat,
      DimmTarCaptureHandler.init, okEvent]

/-- Claim C10 as amended: the entry point returns None exactly when the
input file does not exist at startup or when the final session start time
is Python-falsy (never set, or set to exactly 0.0); in every other case
in which the wait loop ends normally it returns the output archive path
(even when the frame counter is zero). -/
theorem claim10_amended (source : PyPath) (tp : String) (dur : ℚ)
    (events : List FsEvent) (exit : LoopExit)
    (hexit : ∀ msg, exit ≠ LoopExit.error msg) :
    (capture_dimm_to_tar source tp dur false events exit).retval = Except.ok none ∧
    (pyTruthyFloat (runEvents (DimmTarCaptureHandler.init source tp dur)
        events).1.start_time = false →
      (capture_dimm_to_tar source tp dur true events exit).retval = Except.ok none) ∧
    (pyTruthyFloat (runEvents (DimmTarCaptureHandler.init source tp dur)
        events).1.start_time = true →
      (capture_dimm_to_tar source tp dur true events exit).retval =
        Except.ok (some tp)) := by
  refine ⟨by simp [capture_dimm_to_tar], ?_, ?_⟩ <;>
    intro hpt <;>
    cases exit with
  | error msg => exact absurd rfl (hexit msg)
  | timeout => simp [capture_dimm_to_tar, hpt]
  | interrupt => simp [capture_dimm_to_tar, hpt]

/-- Witness for the amended claim C10: with a missing input file the call
returns None; with the input present and one qualifying capture at t = 100
it returns the archive path. -/
theorem claim10_witness :
    (capture_dimm_to_tar samplePath "dimm_data.tar.gz" 30 false
        [okEvent 100 sampleUtc1 [65]] LoopExit.interrupt).retval = Except.ok none ∧
    (capture_dimm_to_tar samplePath "dimm_data.tar.gz" 30 true
        [okEvent 100 sampleUtc1 [65]] LoopExit.interrupt).retval =
      Except.ok (some "dimm_data.tar.gz") := by
  have happ := claim10_amended samplePath "dimm_data.tar.gz" 30
    [okEvent 100 sampleUtc1 [65]] LoopExit.interrupt
    (fun msg h => LoopExit.noConfusion h)
  refine ⟨happ.1, happ.2.2 ?_⟩
  have hstep := dispatch_capture
    (DimmTarCaptureHandler.init samplePath "dimm_data.tar.gz" 30)
    (okEvent 100 sampleUtc1 [65]) [65] rfl rfl rfl
    (by norm_num [DimmTarCaptureHandler.init, okEvent, effStart])
  have hstep2 : dispatch
      { source := samplePath, tar_path := "dimm_data.tar.gz", duration := 30,
        start_time := none, copy_count := 0, stop_observer := false, tar_entries := [] }
      { kind := EventKind.closed, src_path := samplePath.str, now := 100,
        utc := sampleUtc1, sourceMtime := 7, readResult := Except.ok [65] } =
      ({ source := samplePath, tar_path := "dimm_data.tar.gz", duration := 30,
         start_time := some 100, copy_count := 1, stop_observer := false,
         tar_entries := [mkEntry samplePath.stem (okEvent 100 sampleUtc1 [65])] },
       [LogMsg.firstFrame]) := by
    simpa [DimmTarCaptureHandler.init, okEvent, effStart] using hstep
  norm_num [runEvents, hstep2, pyTruthyFloat, DimmTarCaptureHandler.init, okEvent]
